import Mathlib

/-!
Verification of the praxiotech intelligence engine core
(`data_audit.py` and `scoring_engine.py`), shallow-embedded over ℚ.

Modelling conventions:
* Python floats are modelled by ℚ; `round(x, 1)` is modelled by exact
  round-half-even to one decimal (`round1`).
* A pandas cell that may be missing (NaN) is an `Option`; stringification
  of a missing cell yields `"nan"` (`pyStr`), as `astype(str)` does.
* Python's falsy-coalescing `x or d` on numbers is `pyOr`.
* Column presence (`find_col` results) is carried as Boolean flags on the
  table structures.
* `np.random` draws are abstracted as an explicit `rand` parameter;
  timestamps are ℚ day numbers with `now` an explicit parameter, and the
  calendar month of a timestamp (pandas `to_period('M')`) is an explicit
  `monthOf` parameter; results are proved for every such parameter.
-/

/-- Round-half-even of a rational to an integer, as Python's `round` does. -/
def roundHE (q : ℚ) : ℤ :=
  if q - ⌊q⌋ < 1/2 then ⌊q⌋
  else if q - ⌊q⌋ > 1/2 then ⌊q⌋ + 1
  else if ⌊q⌋ % 2 = 0 then ⌊q⌋ else ⌊q⌋ + 1

/-- Python's `round(x, 1)`: round to one decimal place. -/
def round1 (q : ℚ) : ℚ := (roundHE (q * 10) : ℚ) / 10

/-- Python's `v or d` for numbers: `0` is falsy and replaced by the default. -/
def pyOr (v d : ℚ) : ℚ := if v = 0 then d else v

/-- Python's `str` on a possibly-missing (NaN) cell: `astype(str)` turns
missing values into the literal string `"nan"`. -/
def pyStr (o : Option String) : String := o.getD "nan"

/-- `leadsWith pat l` is true when `pat` is an initial segment of `l`. -/
def leadsWith : List Char → List Char → Bool
  | [], _ => true
  | _ :: _, [] => false
  | a :: as, b :: bs => a == b && leadsWith as bs

/-- `containsRun pat l` is true when `pat` occurs as a contiguous run in `l`
(Python's `sub in s`). -/
def containsRun : List Char → List Char → Bool
  | pat, [] => pat.isEmpty
  | pat, c :: rest => leadsWith pat (c :: rest) || containsRun pat rest

/-- Python's `sub in s` substring test on strings. -/
def containsTok (pat s : String) : Bool := containsRun pat.toList s.toList

/-- A restaurant row after loading (and, for the last three fields, after
enrichment; `_enrich_restaurants` assigns all three in every branch). -/
structure RestRow where
  name : String
  page_url : Option String
  rating_n : ℚ
  rev_count_n : ℚ
  website : Option String
  phone : Option String
  price : Option String
  res_rate : ℚ
  sentiment : ℚ
  recency_score : ℚ
deriving DecidableEq

/-- The restaurant table: rows plus which optional columns `find_col`
resolves (`page_url`/`url`/`link`, `website`, `phone`, `price`). -/
structure RestTable where
  rows : List RestRow
  hasUrlCol : Bool
  hasWebsiteCol : Bool
  hasPhoneCol : Bool
  hasPriceCol : Bool
deriving DecidableEq

/-- A review row after `_load_reviews` (date parsed, rating numeric). -/
structure RevRow where
  page_url : Option String
  owner_response : Option String
  review_rating : ℚ
  normalized_date : ℚ
deriving DecidableEq

/-- The review table with its resolved-column flags. -/
structure RevTable where
  rows : List RevRow
  hasUrlCol : Bool
  hasRespCol : Bool
  hasRatingCol : Bool
  hasDateCol : Bool
deriving DecidableEq

/-- `df_rev[df_rev[v_url].astype(str) == str(url)]`: the reviews whose
stringified join key equals the restaurant's url. -/
def matchingReviews (url : String) (rows : List RevRow) : List RevRow :=
  rows.filter (fun v => pyStr v.page_url == url)

/-- The response-rate enrichment of one restaurant row
(`_enrich_restaurants`, response-rate block); `rand` supplies the
`np.random.beta(2, 3)` draw used when no join-key pair exists. -/
def enrichResRate (rt : RestTable) (rv : RevTable) (rand : ℕ → ℚ)
    (i : ℕ) (r : RestRow) : ℚ :=
  if rt.hasUrlCol && rv.hasUrlCol then
    match r.page_url with
    | none => 0
    | some url =>
      if (matchingReviews url rv.rows).length = 0 then 0
      else if rv.hasRespCol then
        (((matchingReviews url rv.rows).countP (fun v => v.owner_response.isSome)) : ℚ)
          / ((matchingReviews url rv.rows).length : ℚ)
      else 0
  else rand i

/-- The sentiment enrichment of one restaurant row
(`_enrich_restaurants`, sentiment block). -/
def enrichSentiment (rt : RestTable) (rv : RevTable) (r : RestRow) : ℚ :=
  if rt.hasUrlCol && rv.hasUrlCol && rv.hasRatingCol then
    match r.page_url with
    | none => ((r.rating_n - 1) / 4) * 100
    | some url =>
      if (matchingReviews url rv.rows).length = 0 then ((r.rating_n - 1) / 4) * 100
      else ((((matchingReviews url rv.rows).map RevRow.review_rating).sum
              / ((matchingReviews url rv.rows).length : ℚ) - 1) / 4) * 100
  else ((r.rating_n - 1) / 4) * 100

/-- The recency-score enrichment of one restaurant row
(`_enrich_restaurants`, recency block); `now` is the ℚ day number of
`datetime.now()`. -/
def enrichRecency (rt : RestTable) (rv : RevTable) (now : ℚ) (r : RestRow) : ℚ :=
  if rt.hasUrlCol && rv.hasUrlCol && rv.hasDateCol then
    match r.page_url with
    | none => 0.5
    | some url =>
      if (matchingReviews url rv.rows).length = 0 then 0.5
      else
        min (((((matchingReviews url rv.rows).countP
                  (fun v => now - 90 < v.normalized_date)) : ℚ) * 0.7 +
              (((matchingReviews url rv.rows).countP
                  (fun v => now - 180 < v.normalized_date)) : ℚ) * 0.3)
             / ((matchingReviews url rv.rows).length : ℚ)) 1
  else 0.5

/-- `_enrich_restaurants`: set `res_rate`, `sentiment` and `recency_score`
on every row. -/
def enrichRestaurants (rt : RestTable) (rv : RevTable) (rand : ℕ → ℚ)
    (now : ℚ) : RestTable :=
  { rt with rows := rt.rows.enum.map (fun p =>
      { p.2 with
        res_rate := enrichResRate rt rv rand p.1 p.2
        sentiment := enrichSentiment rt rv p.2
        recency_score := enrichRecency rt rv now p.2 }) }

/-- `df_rest[df_rest['name'] == res_name].iloc[0]`: first row with the
exact name, or a lookup failure. -/
def lookupRest (name : String) (rt : RestTable) : Option RestRow :=
  rt.rows.find? (fun r => r.name == name)

/-- The output mapping of `compute_dimension_scores`. -/
structure DimensionScores where
  reputation : ℚ
  responsiveness : ℚ
  digital : ℚ
  intelligence : ℚ
  visibility : ℚ
  composite : ℚ
deriving DecidableEq

/-- The price bonus used by the Digital Presence score. -/
def priceBonus (priceRaw : String) : ℚ :=
  if containsTok "Mehr" priceRaw then 10
  else if containsTok "20" priceRaw then 5
  else 2

/-- Reputation score (clamped, unrounded). -/
def score_rep (rating revCount : ℚ) : ℚ :=
  min (rating / 5 * 70 + min (revCount / 500) 1 * 30) 100

/-- Responsiveness score (clamped, unrounded). -/
def score_res (resRate : ℚ) : ℚ := min (resRate * 100) 100

/-- Digital Presence score (clamped, unrounded). -/
def score_dig (hasWebsite hasPhone : Bool) (priceRaw : String) : ℚ :=
  min ((if hasWebsite then 50 else 10) + (if hasPhone then 25 else 0)
        + 15 + priceBonus priceRaw) 100

/-- Intelligence score (clamped, unrounded). -/
def score_int (sentiment : ℚ) : ℚ := min sentiment 100

/-- Visibility score (clamped, unrounded). -/
def score_vis (recency : ℚ) : ℚ := min (recency * 100) 100

/-- `compute_dimension_scores(res_name, df_rest, df_rev)` (the review
table argument is unused by the source function). -/
def compute_dimension_scores (resName : String) (rt : RestTable)
    (_rv : RevTable) : DimensionScores :=
  match lookupRest resName rt with
  | none => ⟨0, 0, 0, 0, 0, 0⟩
  | some row =>
    let rating := pyOr row.rating_n 0
    let revCount := pyOr row.rev_count_n 0
    let resRate := pyOr row.res_rate 0
    let sentiment := pyOr row.sentiment 0
    let recency := pyOr row.recency_score 0.5
    let hasWebsite := rt.hasWebsiteCol && row.website.isSome
    let hasPhone := rt.hasPhoneCol && row.phone.isSome
    let priceRaw := if rt.hasPriceCol then pyStr row.price else ""
    let sRep := score_rep rating revCount
    let sRes := score_res resRate
    let sDig := score_dig hasWebsite hasPhone priceRaw
    let sInt := score_int sentiment
    let sVis := score_vis recency
    let comp := sRep * 0.30 + sRes * 0.25 + sDig * 0.20 + sInt * 0.15 + sVis * 0.10
    ⟨round1 sRep, round1 sRes, round1 sDig, round1 sInt, round1 sVis, round1 comp⟩

/-- `get_silent_winner_flag(res_name, df_rest)`. -/
def get_silent_winner_flag (resName : String) (rt : RestTable) : Bool :=
  match lookupRest resName rt with
  | none => false
  | some row =>
    decide ((4.5 : ℚ) ≤ pyOr row.rating_n 0) && decide (pyOr row.res_rate 1 < 0.30)

/-- The standard targets of `get_gap_analysis`; the benchmark mapping is
represented by its (possibly absent) `rating` entry, defaulted to `4.4`. -/
def standardTargets (bmRating : Option ℚ) : List (String × ℚ) :=
  [("Reputation", (bmRating.getD 4.4) * 20),
   ("Responsiveness", 90),
   ("Digital Presence", 85),
   ("Intelligence", 75),
   ("Visibility", 70)]

/-- `scores[d]` for the five dimension keys used by `get_gap_analysis`. -/
def dimValue (s : DimensionScores) (d : String) : ℚ :=
  if d = "Reputation" then s.reputation
  else if d = "Responsiveness" then s.responsiveness
  else if d = "Digital Presence" then s.digital
  else if d = "Intelligence" then s.intelligence
  else s.visibility

/-- `get_gap_analysis(scores, benchmarks)`: per-dimension rounded gaps,
sorted descending by gap (Python's stable `sorted` with `reverse=True`). -/
def get_gap_analysis (scores : DimensionScores) (bmRating : Option ℚ) :
    List (String × ℚ) :=
  let gaps := (standardTargets bmRating).map
    (fun p => (p.1, round1 (p.2 - dimValue scores p.1)))
  gaps.insertionSort (fun a b => b.2 ≤ a.2)

/-- Helper for `pySplitWs`: accumulate the current token in reverse. -/
def splitWsAux : List Char → List Char → List String
  | [], cur => if cur = [] then [] else [String.mk cur.reverse]
  | c :: rest, cur =>
    if c.isWhitespace then
      if cur = [] then splitWsAux rest []
      else String.mk cur.reverse :: splitWsAux rest []
    else splitWsAux rest (c :: cur)

/-- Python's `s.split()`: split on whitespace runs, dropping empty pieces. -/
def pySplitWs (s : String) : List String := splitWsAux s.toList []

/-- The real momentum aggregation: group the matched reviews by calendar
month (`monthOf` of the date), count per month, sort ascending, keep the
last 13 months (`tail(13)`). -/
def realMomentum (monthOf : ℚ → ℤ) (subset : List RevRow) : List (ℤ × ℕ) :=
  let ms := subset.map (fun v => monthOf v.normalized_date)
  let keys := ms.dedup.insertionSort (· ≤ ·)
  let monthly := keys.map (fun k => (k, ms.count k))
  monthly.drop (monthly.length - 13)

/-- `_synthetic_momentum()`: 13 consecutive months ending at the current
month (represented by the month index `nowMonth`), with `rand`-supplied
Poisson counts. -/
def syntheticMomentum (nowMonth : ℤ) (rand : ℕ → ℕ) : List (ℤ × ℕ) :=
  (List.range 13).map (fun (i : ℕ) => (nowMonth - 12 + (i : ℤ), rand i))

/-- `compute_momentum(res_name, df_rev)`; the `none` branch of the name
fragment is the `IndexError` of `res_name.split()[0]` on a non-empty
all-whitespace name, caught by the surrounding `except`. -/
def compute_momentum (monthOf : ℚ → ℤ) (resName : String) (rv : RevTable)
    (nowMonth : ℤ) (rand : ℕ → ℕ) : List (ℤ × ℕ) :=
  if rv.hasUrlCol = false ∨ rv.hasDateCol = false then
    syntheticMomentum nowMonth rand
  else
    match (if resName = "" then some "" else (pySplitWs resName).head?) with
    | none => syntheticMomentum nowMonth rand
    | some frag =>
      if (rv.rows.filter (fun v => containsTok frag (pyStr v.page_url))).length = 0 then
        syntheticMomentum nowMonth rand
      else realMomentum monthOf (rv.rows.filter (fun v => containsTok frag (pyStr v.page_url)))

/-- The maximal digit runs of a character list, accumulator style
(`re.findall(r'\d+', s)`). -/
def digitRunsAux : List Char → List Char → List (List Char)
  | [], cur => if cur = [] then [] else [cur.reverse]
  | c :: rest, cur =>
    if c.isDigit then digitRunsAux rest (c :: cur)
    else if cur = [] then digitRunsAux rest []
    else cur.reverse :: digitRunsAux rest []

/-- `re.findall(r'\d+', s)`: all maximal digit runs of `s`, in order. -/
def digitRuns (s : String) : List String :=
  (digitRunsAux s.toList []).map (fun l => String.mk l)

/-- The numeric value of a list of decimal digit characters. -/
def natOfDigits (l : List Char) : ℕ :=
  l.foldl (fun a c => a * 10 + (c.toNat - 48)) 0

/-- `_parse_int(x)` on the stringified value: concatenate the first two
digit runs and read them as an integer, `0` when there are none. -/
def parse_int (s : String) : ℕ :=
  let found := digitRuns s
  if found = [] then 0 else natOfDigits (String.join (found.take 2)).toList

/-- The result of `_parse_german_date`: either a point `h` hours before
`datetime.now()`, or an absolute civil date from `strptime`. -/
inductive PyDate where
  | relHours (h : ℚ)
  | absolute (y m d : ℕ)
deriving DecidableEq

/-- Gregorian leap year. -/
def isLeap (y : ℕ) : Bool := (y % 4 = 0 && y % 100 ≠ 0) || y % 400 = 0

/-- Days in a month of the proleptic Gregorian calendar. -/
def daysInMonth (y m : ℕ) : ℕ :=
  if m = 2 then (if isLeap y then 29 else 28)
  else if m = 4 ∨ m = 6 ∨ m = 9 ∨ m = 11 then 30
  else 31

/-- Validity of a `datetime.date(y, m, d)` construction. -/
def validYMD (y m d : ℕ) : Bool :=
  decide (1 ≤ y) && decide (1 ≤ m) && decide (m ≤ 12) &&
  decide (1 ≤ d) && decide (d ≤ daysInMonth y m)

/-- A `strptime` field: 1–`maxLen` digit characters. -/
def digitField (l : List Char) (maxLen : ℕ) : Bool :=
  l.all Char.isDigit && decide (1 ≤ l.length) && decide (l.length ≤ maxLen)

/-- `strptime` with a day–month–year format over the given separator
(`%d.%m.%Y` and `%d/%m/%Y`). -/
def tryFormatDMY (sep : String) (s : String) : Option PyDate :=
  match s.splitOn sep with
  | [ds, ms, ys] =>
    if digitField ds.toList 2 && digitField ms.toList 2 &&
       (ys.toList.all Char.isDigit && decide (ys.toList.length = 4)) then
      let d := natOfDigits ds.toList
      let m := natOfDigits ms.toList
      let y := natOfDigits ys.toList
      if validYMD y m d then some (.absolute y m d) else none
    else none
  | _ => none

/-- `strptime` with the `%Y-%m-%d` format. -/
def tryFormatYMD (sep : String) (s : String) : Option PyDate :=
  match s.splitOn sep with
  | [ys, ms, ds] =>
    if (ys.toList.all Char.isDigit && decide (ys.toList.length = 4)) &&
       digitField ms.toList 2 && digitField ds.toList 2 then
      let y := natOfDigits ys.toList
      let m := natOfDigits ms.toList
      let d := natOfDigits ds.toList
      if validYMD y m d then some (.absolute y m d) else none
    else none
  | _ => none

/-- `int(re.search(r'\d+', s).group())` with default `1`: the first digit
run of the lowered string. -/
def leadingNumber (s : String) : ℕ :=
  match digitRuns s with
  | [] => 1
  | r :: _ => natOfDigits r.toList

/-- The absolute-format chain of `_parse_german_date`: try `%d.%m.%Y`,
`%Y-%m-%d`, `%d/%m/%Y` in order; all failing, 90 days before now. -/
def absoluteFallback (dateStr : String) : PyDate :=
  match tryFormatDMY "." dateStr with
  | some d => d
  | none =>
    match tryFormatYMD "-" dateStr with
    | some d => d
    | none =>
      match tryFormatDMY "/" dateStr with
      | some d => d
      | none => .relHours (90 * 24)

/-- `_parse_german_date(date_str)`, translated branch by branch
(`n` is `int(re.search(r'\d+', s).group())` with default `1`). -/
def parse_german_date (dateStr : String) : PyDate :=
  if containsTok "einem monat" dateStr.toLower then .relHours (30 * 24)
  else if containsTok "monat" dateStr.toLower then
    .relHours ((leadingNumber dateStr.toLower : ℕ) * 30 * 24)
  else if containsTok "einem jahr" dateStr.toLower then .relHours (365 * 24)
  else if containsTok "jahr" dateStr.toLower then
    .relHours ((leadingNumber dateStr.toLower : ℕ) * 365 * 24)
  else if containsTok "einer woche" dateStr.toLower then .relHours (7 * 24)
  else if containsTok "woche" dateStr.toLower then
    .relHours ((leadingNumber dateStr.toLower : ℕ) * 7 * 24)
  else if containsTok "tag" dateStr.toLower then
    .relHours ((leadingNumber dateStr.toLower : ℕ) * 24)
  else if containsTok "stunde" dateStr.toLower then
    .relHours ((leadingNumber dateStr.toLower : ℕ))
  else if containsTok "gestern" dateStr.toLower then .relHours 24
  else if containsTok "heute" dateStr.toLower then .relHours 0
  else absoluteFallback dateStr

/-- The marker table of the specification, in its stated priority order,
each paired with its resulting offset before now. -/
def markerRules (n : ℚ) : List (String × PyDate) :=
  [("einem monat", .relHours (30 * 24)),
   ("monat", .relHours (n * 30 * 24)),
   ("einem jahr", .relHours (365 * 24)),
   ("jahr", .relHours (n * 365 * 24)),
   ("einer woche", .relHours (7 * 24)),
   ("woche", .relHours (n * 7 * 24)),
   ("tag", .relHours (n * 24)),
   ("stunde", .relHours n),
   ("gestern", .relHours 24),
   ("heute", .relHours 0)]

/-- The first parse that succeeds among a list of attempts. -/
def firstSome : List (Option PyDate) → Option PyDate
  | [] => none
  | some d :: _ => some d
  | none :: rest => firstSome rest

/-- The specification's description of German date coercion: scan the
marker table in priority order (first match wins); with no marker, try the
three absolute formats in order; with everything failing, 90 days ago. -/
def specGermanDate (dateStr : String) : PyDate :=
  match (markerRules ((leadingNumber dateStr.toLower : ℕ) : ℚ)).find?
      (fun p => containsTok p.1 dateStr.toLower) with
  | some p => p.2
  | none =>
    match firstSome [tryFormatDMY "." dateStr, tryFormatYMD "-" dateStr,
                     tryFormatDMY "/" dateStr] with
    | some d => d
    | none => .relHours (90 * 24)

theorem roundHE_bounds (q : ℚ) :
    q - 1/2 ≤ (roundHE q : ℚ) ∧ (roundHE q : ℚ) ≤ q + 1/2 := by
  have h1 : ((⌊q⌋ : ℤ) : ℚ) ≤ q := Int.floor_le q
  have h2 : q < (⌊q⌋ : ℤ) + 1 := Int.lt_floor_add_one q
  unfold roundHE
  split_ifs with ha hb hc <;> constructor <;> push_cast <;> linarith

theorem round1_nonneg {q : ℚ} (h : 0 ≤ q) : 0 ≤ round1 q := by
  have hb := (roundHE_bounds (q * 10)).1
  have hz : (0 : ℤ) ≤ roundHE (q * 10) := by
    have hlt : ((-1 : ℤ) : ℚ) < ((roundHE (q * 10) : ℤ) : ℚ) := by push_cast; linarith
    have h2 : (-1 : ℤ) < roundHE (q * 10) := by exact_mod_cast hlt
    omega
  unfold round1
  have : (0 : ℚ) ≤ (roundHE (q * 10) : ℚ) := by exact_mod_cast hz
  linarith

theorem round1_le_hundred {q : ℚ} (h : q ≤ 100) : round1 q ≤ 100 := by
  have hb := (roundHE_bounds (q * 10)).2
  have hz : roundHE (q * 10) ≤ 1000 := by
    have hlt : (roundHE (q * 10) : ℚ) < 1001 := by linarith
    exact_mod_cast Int.lt_add_one_iff.mp (by exact_mod_cast hlt)
  unfold round1
  have : (roundHE (q * 10) : ℚ) ≤ 1000 := by exact_mod_cast hz
  linarith

theorem abs_round1_sub (q : ℚ) : |round1 q - q| ≤ 1/20 := by
  obtain ⟨h1, h2⟩ := roundHE_bounds (q * 10)
  rw [abs_le]
  unfold round1
  constructor <;> linarith

theorem pyOr_zero (v : ℚ) : pyOr v 0 = v := by
  unfold pyOr; split <;> simp_all

theorem pyOr_half_mem {v : ℚ} (h0 : 0 ≤ v) (h1 : v ≤ 1) :
    0 ≤ pyOr v 0.5 ∧ pyOr v 0.5 ≤ 1 := by
  unfold pyOr
  split_ifs with h
  · norm_num
  · exact ⟨h0, h1⟩

theorem priceBonus_mem (s : String) : 2 ≤ priceBonus s ∧ priceBonus s ≤ 10 := by
  unfold priceBonus; split_ifs <;> norm_num

theorem score_rep_mem {a b : ℚ} (ha : 0 ≤ a) (hb : 0 ≤ b) :
    0 ≤ score_rep a b ∧ score_rep a b ≤ 100 := by
  unfold score_rep
  refine ⟨le_min ?_ (by norm_num), min_le_right _ _⟩
  have hm : (0 : ℚ) ≤ min (b / 500) 1 := le_min (by positivity) (by norm_num)
  have : (0 : ℚ) ≤ a / 5 * 70 := by positivity
  nlinarith

theorem score_res_mem {a : ℚ} (ha : 0 ≤ a) :
    0 ≤ score_res a ∧ score_res a ≤ 100 := by
  unfold score_res
  exact ⟨le_min (by positivity) (by norm_num), min_le_right _ _⟩

theorem score_dig_mem (w p : Bool) (s : String) :
    0 ≤ score_dig w p s ∧ score_dig w p s ≤ 100 := by
  obtain ⟨h2, _⟩ := priceBonus_mem s
  unfold score_dig
  refine ⟨le_min ?_ (by norm_num), min_le_right _ _⟩
  cases w <;> cases p <;> simp <;> linarith

theorem score_int_mem {a : ℚ} (ha : 0 ≤ a) :
    0 ≤ score_int a ∧ score_int a ≤ 100 := by
  unfold score_int
  exact ⟨le_min ha (by norm_num), min_le_right _ _⟩

theorem score_vis_mem {a : ℚ} (ha : 0 ≤ a) :
    0 ≤ score_vis a ∧ score_vis a ≤ 100 := by
  unfold score_vis
  exact ⟨le_min (by positivity) (by norm_num), min_le_right _ _⟩

theorem enrichResRate_mem (rt : RestTable) (rv : RevTable) (rand : ℕ → ℚ)
    (i : ℕ) (r : RestRow) (hrand : ∀ j, 0 ≤ rand j ∧ rand j ≤ 1) :
    0 ≤ enrichResRate rt rv rand i r ∧ enrichResRate rt rv rand i r ≤ 1 := by
  unfold enrichResRate
  split
  · split
    · norm_num
    · rename_i url _
      split_ifs with hlen hresp
      · norm_num
      · have hpos : (0 : ℚ) < ((matchingReviews url rv.rows).length : ℚ) := by
          exact_mod_cast Nat.pos_of_ne_zero hlen
        constructor
        · positivity
        · rw [div_le_one hpos]
          exact_mod_cast List.countP_le_length _
      · norm_num
  · exact hrand i

theorem enrichRecency_mem (rt : RestTable) (rv : RevTable) (now : ℚ) (r : RestRow) :
    0 ≤ enrichRecency rt rv now r ∧ enrichRecency rt rv now r ≤ 1 := by
  unfold enrichRecency
  split
  · split
    · norm_num
    · rename_i url _
      split_ifs with hlen
      · norm_num
      · have hpos : (0 : ℚ) < ((matchingReviews url rv.rows).length : ℚ) := by
          exact_mod_cast Nat.pos_of_ne_zero hlen
        constructor
        · refine le_min ?_ (by norm_num)
          positivity
        · exact min_le_right _ _
  · norm_num

theorem enrichSentiment_mem (rt : RestTable) (rv : RevTable) (r : RestRow)
    (h1 : 1 ≤ r.rating_n) (h5 : r.rating_n ≤ 5)
    (hrev : ∀ v ∈ rv.rows, 1 ≤ v.review_rating ∧ v.review_rating ≤ 5) :
    0 ≤ enrichSentiment rt rv r ∧ enrichSentiment rt rv r ≤ 100 := by
  have hfall : 0 ≤ ((r.rating_n - 1) / 4) * 100 ∧ ((r.rating_n - 1) / 4) * 100 ≤ 100 := by
    constructor <;> nlinarith
  unfold enrichSentiment
  split
  · split
    · exact hfall
    · rename_i url _
      split_ifs with hlen
      · exact hfall
      · set sub := matchingReviews url rv.rows with hsub
        have hsubmem : ∀ v ∈ sub, 1 ≤ v.review_rating ∧ v.review_rating ≤ 5 := by
          intro v hv
          exact hrev v (List.mem_of_mem_filter hv)
        have hpos : (0 : ℚ) < (sub.length : ℚ) := by
          have := Nat.pos_of_ne_zero hlen
          exact_mod_cast this
        have hsum_le : (sub.map RevRow.review_rating).sum ≤ (sub.length : ℚ) * 5 := by
          have := List.sum_le_card_nsmul (sub.map RevRow.review_rating) 5
            (by intro x hx
                obtain ⟨v, hv, rfl⟩ := List.mem_map.mp hx
                exact (hsubmem v hv).2)
          simpa [List.length_map, nsmul_eq_mul] using this
        have hsum_ge : (sub.length : ℚ) * 1 ≤ (sub.map RevRow.review_rating).sum := by
          have := List.card_nsmul_le_sum (sub.map RevRow.review_rating) 1
            (by intro x hx
                obtain ⟨v, hv, rfl⟩ := List.mem_map.mp hx
                exact (hsubmem v hv).1)
          simpa [List.length_map, nsmul_eq_mul] using this
        have hmean_le : (sub.map RevRow.review_rating).sum / (sub.length : ℚ) ≤ 5 := by
          rw [div_le_iff₀ hpos]; linarith
        have hmean_ge : 1 ≤ (sub.map RevRow.review_rating).sum / (sub.length : ℚ) := by
          rw [le_div_iff₀ hpos]; linarith
        constructor <;> nlinarith
  · exact hfall

theorem mem_enrich {rt : RestTable} {rv : RevTable} {rand : ℕ → ℚ} {now : ℚ}
    {r : RestRow} (h : r ∈ (enrichRestaurants rt rv rand now).rows) :
    ∃ i r0, r0 ∈ rt.rows ∧
      r = { r0 with
            res_rate := enrichResRate rt rv rand i r0
            sentiment := enrichSentiment rt rv r0
            recency_score := enrichRecency rt rv now r0 } := by
  unfold enrichRestaurants at h
  simp only [List.mem_map] at h
  obtain ⟨⟨i, r0⟩, hmem, rfl⟩ := h
  exact ⟨i, r0, List.snd_mem_of_mem_enum hmem, rfl⟩

theorem cds_found {name : String} {rt : RestTable} (rv : RevTable)
    {r : RestRow} (h : lookupRest name rt = some r) :
    compute_dimension_scores name rt rv =
      ⟨round1 (score_rep (pyOr r.rating_n 0) (pyOr r.rev_count_n 0)),
       round1 (score_res (pyOr r.res_rate 0)),
       round1 (score_dig (rt.hasWebsiteCol && r.website.isSome)
                 (rt.hasPhoneCol && r.phone.isSome)
                 (if rt.hasPriceCol then pyStr r.price else "")),
       round1 (score_int (pyOr r.sentiment 0)),
       round1 (score_vis (pyOr r.recency_score 0.5)),
       round1 (score_rep (pyOr r.rating_n 0) (pyOr r.rev_count_n 0) * 0.30 +
               score_res (pyOr r.res_rate 0) * 0.25 +
               score_dig (rt.hasWebsiteCol && r.website.isSome)
                 (rt.hasPhoneCol && r.phone.isSome)
                 (if rt.hasPriceCol then pyStr r.price else "") * 0.20 +
               score_int (pyOr r.sentiment 0) * 0.15 +
               score_vis (pyOr r.recency_score 0.5) * 0.10)⟩ := by
  unfold compute_dimension_scores
  rw [h]

def rtC1 : RestTable :=
  ⟨[⟨"Zum Adler", some "u1", 0, 0, none, none, none, 0, 0, 0⟩],
   true, false, false, false⟩

def rvC1 : RevTable := ⟨[], true, true, true, true⟩

/-- Claim C1, counterexample: enriching a restaurant whose `rating_n` is `0`
(an unparseable rating) with join keys present but no matching reviews puts
the sentiment fallback `((0 - 1)/4)*100 = -25` in the table, and the
Intelligence dimension of `compute_dimension_scores` is then `-25 ∉ [0,100]`. -/
theorem C1_counterexample :
    (compute_dimension_scores "Zum Adler"
        (enrichRestaurants rtC1 rvC1 (fun _ => 0) 0) rvC1).intelligence = -25 ∧
    ¬ (0 ≤ (compute_dimension_scores "Zum Adler"
        (enrichRestaurants rtC1 rvC1 (fun _ => 0) 0) rvC1).intelligence) := by
  have h : lookupRest "Zum Adler" (enrichRestaurants rtC1 rvC1 (fun _ => 0) 0) =
      some ⟨"Zum Adler", some "u1", 0, 0, none, none, none, 0, -25, 0.5⟩ := by
    norm_num [lookupRest, enrichRestaurants, rtC1, rvC1, List.find?, List.enum,
      List.enumFrom, enrichResRate, enrichSentiment, enrichRecency, matchingReviews]
  rw [cds_found rvC1 h]
  norm_num [score_int, pyOr, round1, roundHE, min_def]

/-- Claim C1 (amended): over any enriched restaurant table built from loader
rows (nonnegative `rating_n`, `rev_count_n`) and Beta-distributed fallback
draws, every found restaurant's Reputation, Responsiveness, Digital Presence
and Visibility are in [0,100]; Intelligence and the Composite are in [0,100]
provided the row's enriched sentiment is nonnegative — the sentiment fallback
`((rating_n - 1)/4)*100` is negative when `rating_n < 1`, which the
counterexample shows escapes [0,100]. -/
theorem C1_dimension_ranges (rt : RestTable) (rv : RevTable) (rand : ℕ → ℚ)
    (now : ℚ) (name : String) (r : RestRow)
    (hrow : ∀ x ∈ rt.rows, 0 ≤ x.rating_n ∧ 0 ≤ x.rev_count_n)
    (hrand : ∀ j, 0 ≤ rand j ∧ rand j ≤ 1)
    (hfound : lookupRest name (enrichRestaurants rt rv rand now) = some r) :
    (0 ≤ (compute_dimension_scores name (enrichRestaurants rt rv rand now) rv).reputation ∧
      (compute_dimension_scores name (enrichRestaurants rt rv rand now) rv).reputation ≤ 100) ∧
    (0 ≤ (compute_dimension_scores name (enrichRestaurants rt rv rand now) rv).responsiveness ∧
      (compute_dimension_scores name (enrichRestaurants rt rv rand now) rv).responsiveness ≤ 100) ∧
    (0 ≤ (compute_dimension_scores name (enrichRestaurants rt rv rand now) rv).digital ∧
      (compute_dimension_scores name (enrichRestaurants rt rv rand now) rv).digital ≤ 100) ∧
    (0 ≤ (compute_dimension_scores name (enrichRestaurants rt rv rand now) rv).visibility ∧
      (compute_dimension_scores name (enrichRestaurants rt rv rand now) rv).visibility ≤ 100) ∧
    (0 ≤ r.sentiment →
      (0 ≤ (compute_dimension_scores name (enrichRestaurants rt rv rand now) rv).intelligence ∧
        (compute_dimension_scores name (enrichRestaurants rt rv rand now) rv).intelligence ≤ 100) ∧
      (0 ≤ (compute_dimension_scores name (enrichRestaurants rt rv rand now) rv).composite ∧
        (compute_dimension_scores name (enrichRestaurants rt rv rand now) rv).composite ≤ 100)) := by
  obtain ⟨i, r0, hr0, hr⟩ := mem_enrich (List.mem_of_find?_eq_some hfound)
  rw [cds_found rv hfound]
  have hrate : r.rating_n = r0.rating_n := by rw [hr]
  have hcount : r.rev_count_n = r0.rev_count_n := by rw [hr]
  have hres : r.res_rate = enrichResRate rt rv rand i r0 := by rw [hr]
  have hrec : r.recency_score = enrichRecency rt rv now r0 := by rw [hr]
  have hra : 0 ≤ pyOr r.rating_n 0 := by
    rw [pyOr_zero, hrate]; exact (hrow r0 hr0).1
  have hrc : 0 ≤ pyOr r.rev_count_n 0 := by
    rw [pyOr_zero, hcount]; exact (hrow r0 hr0).2
  have hrr : 0 ≤ pyOr r.res_rate 0 ∧ pyOr r.res_rate 0 ≤ 1 := by
    rw [pyOr_zero, hres]
    exact enrichResRate_mem rt rv rand i r0 hrand
  have hrecm : 0 ≤ pyOr r.recency_score 0.5 ∧ pyOr r.recency_score 0.5 ≤ 1 := by
    rw [hrec]
    exact pyOr_half_mem (enrichRecency_mem rt rv now r0).1 (enrichRecency_mem rt rv now r0).2
  obtain ⟨hrep0, hrep1⟩ := score_rep_mem hra hrc
  have hres1 : 0 ≤ score_res (pyOr r.res_rate 0) ∧ score_res (pyOr r.res_rate 0) ≤ 100 :=
    score_res_mem hrr.1
  obtain ⟨hdig0, hdig1⟩ := score_dig_mem
    ((enrichRestaurants rt rv rand now).hasWebsiteCol && r.website.isSome)
    ((enrichRestaurants rt rv rand now).hasPhoneCol && r.phone.isSome)
    (if (enrichRestaurants rt rv rand now).hasPriceCol then pyStr r.price else "")
  have hvism : 0 ≤ score_vis (pyOr r.recency_score 0.5) ∧
      score_vis (pyOr r.recency_score 0.5) ≤ 100 := score_vis_mem hrecm.1
  refine ⟨⟨round1_nonneg hrep0, round1_le_hundred hrep1⟩,
          ⟨round1_nonneg hres1.1, round1_le_hundred hres1.2⟩,
          ⟨round1_nonneg hdig0, round1_le_hundred hdig1⟩,
          ⟨round1_nonneg hvism.1, round1_le_hundred hvism.2⟩, ?_⟩
  intro hs
  have hsint : 0 ≤ pyOr r.sentiment 0 := by rw [pyOr_zero]; exact hs
  obtain ⟨hint0, hint1⟩ := score_int_mem hsint
  refine ⟨⟨round1_nonneg hint0, round1_le_hundred hint1⟩,
          round1_nonneg (by nlinarith), round1_le_hundred (by nlinarith)⟩

def rtW1 : RestTable :=
  ⟨[⟨"Gasthaus Sonne", some "w1", 1, 0, none, none, none, 0, 0, 0⟩],
   true, false, false, false⟩

/-- Witness for the amended C1 at a concrete enriched table. -/
theorem C1_dimension_ranges_witness :
    0 ≤ (compute_dimension_scores "Gasthaus Sonne"
          (enrichRestaurants rtW1 rvC1 (fun _ => 0) 0) rvC1).reputation ∧
    (compute_dimension_scores "Gasthaus Sonne"
          (enrichRestaurants rtW1 rvC1 (fun _ => 0) 0) rvC1).composite ≤ 100 := by
  have h := C1_dimension_ranges rtW1 rvC1 (fun _ => 0) 0 "Gasthaus Sonne"
    ⟨"Gasthaus Sonne", some "w1", 1, 0, none, none, none, 0, 0, 0.5⟩
    (by intro x hx; simp [rtW1] at hx; subst hx; norm_num)
    (fun j => by norm_num)
    (by norm_num [lookupRest, enrichRestaurants, rtW1, rvC1, List.find?, List.enum,
      List.enumFrom, enrichResRate, enrichSentiment, enrichRecency, matchingReviews])
  exact ⟨h.1.1, (h.2.2.2.2 (by norm_num)).2.2⟩

/-- Claim C4, counterexample: after `_enrich_restaurants` runs on a restaurant
with `rating_n = 0` and no matching reviews, its sentiment is the fallback
`((0 - 1)/4)*100 = -25`, outside the claimed range [0,100]. -/
theorem C4_counterexample :
    (enrichRestaurants rtC1 rvC1 (fun _ => 0) 0).rows.map RestRow.sentiment = [-25] ∧
    ¬ (0 ≤ (-25 : ℚ)) := by
  norm_num [enrichRestaurants, rtC1, rvC1, List.enum, List.enumFrom,
    enrichSentiment, matchingReviews, enrichResRate, enrichRecency]

/-- Claim C4 (amended): after enrichment every row has all three scores set
(they are assigned in every branch), with `res_rate ∈ [0,1]` and
`recency_score ∈ [0,1]` unconditionally (given that the Beta fallback draws
lie in [0,1]); `sentiment ∈ [0,100]` holds provided `rating_n ∈ [1,5]` and
all review ratings lie in [1,5] — the fallback rescaling of `rating_n` is
negative when `rating_n < 1`, as the counterexample shows. -/
theorem C4_enrichment_ranges (rt : RestTable) (rv : RevTable) (rand : ℕ → ℚ)
    (now : ℚ) (r : RestRow)
    (hrating : ∀ x ∈ rt.rows, 1 ≤ x.rating_n ∧ x.rating_n ≤ 5)
    (hrev : ∀ v ∈ rv.rows, 1 ≤ v.review_rating ∧ v.review_rating ≤ 5)
    (hrand : ∀ j, 0 ≤ rand j ∧ rand j ≤ 1)
    (hmem : r ∈ (enrichRestaurants rt rv rand now).rows) :
    (0 ≤ r.res_rate ∧ r.res_rate ≤ 1) ∧
    (0 ≤ r.sentiment ∧ r.sentiment ≤ 100) ∧
    (0 ≤ r.recency_score ∧ r.recency_score ≤ 1) := by
  obtain ⟨i, r0, hr0, rfl⟩ := mem_enrich hmem
  exact ⟨enrichResRate_mem rt rv rand i r0 hrand,
         enrichSentiment_mem rt rv r0 (hrating r0 hr0).1 (hrating r0 hr0).2 hrev,
         enrichRecency_mem rt rv now r0⟩

/-- Witness for the amended C4 at a concrete enriched table. -/
theorem C4_enrichment_ranges_witness :
    (0 ≤ (0 : ℚ) ∧ (0 : ℚ) ≤ 1) ∧ (0 ≤ (0 : ℚ) ∧ (0 : ℚ) ≤ 100) ∧
    (0 ≤ (0.5 : ℚ) ∧ (0.5 : ℚ) ≤ 1) := by
  have h := C4_enrichment_ranges rtW1 rvC1 (fun _ => 0) 0
    ⟨"Gasthaus Sonne", some "w1", 1, 0, none, none, none, 0, 0, 0.5⟩
    (by intro x hx; simp [rtW1] at hx; subst hx; norm_num)
    (by intro v hv; simp [rvC1] at hv)
    (fun j => by norm_num)
    (by norm_num [enrichRestaurants, rtW1, rvC1, List.enum, List.enumFrom,
      enrichResRate, enrichSentiment, enrichRecency, matchingReviews])
  exact h

def rowC2 : RestRow := ⟨"Bella Vista", some "u2", 0, 0, none, none, none, 0, 2/5, 1/2⟩

def tblC2 : RestTable := ⟨[rowC2], true, false, false, false⟩

def revC2 : RevTable := ⟨[], true, true, true, true⟩

/-- Claim C2, counterexample: the source rounds the composite of the
UNROUNDED scores, so at sentiment `0.4` the returned Composite is `10.5`
while the weighted sum of the returned (rounded) dimension values is
`10.46`. -/
theorem C2_counterexample :
    (compute_dimension_scores "Bella Vista" tblC2 revC2).composite = 10.5 ∧
    (compute_dimension_scores "Bella Vista" tblC2 revC2).reputation * 0.30 +
      (compute_dimension_scores "Bella Vista" tblC2 revC2).responsiveness * 0.25 +
      (compute_dimension_scores "Bella Vista" tblC2 revC2).digital * 0.20 +
      (compute_dimension_scores "Bella Vista" tblC2 revC2).intelligence * 0.15 +
      (compute_dimension_scores "Bella Vista" tblC2 revC2).visibility * 0.10 = 10.46 ∧
    (10.5 : ℚ) ≠ 10.46 := by
  have h : lookupRest "Bella Vista" tblC2 = some rowC2 := by
    norm_num [lookupRest, tblC2, rowC2, List.find?]
  rw [cds_found revC2 h]
  norm_num [rowC2, tblC2, score_rep, score_res, score_dig, score_int, score_vis,
    priceBonus, containsTok, containsRun, leadsWith, pyOr, pyStr, round1, roundHE,
    min_def]

/-- Claim C2 (amended): the returned Composite is the one-decimal rounding of
the weighted sum of the five CLAMPED, UNROUNDED dimension scores; it can
therefore differ from the weighted sum of the five returned rounded values,
though never by more than 1/10. -/
theorem C2_composite (rt : RestTable) (rv : RevTable) (name : String)
    (r : RestRow) (hfound : lookupRest name rt = some r) :
    (compute_dimension_scores name rt rv).composite =
      round1 (0.30 * score_rep (pyOr r.rating_n 0) (pyOr r.rev_count_n 0) +
              0.25 * score_res (pyOr r.res_rate 0) +
              0.20 * score_dig (rt.hasWebsiteCol && r.website.isSome)
                       (rt.hasPhoneCol && r.phone.isSome)
                       (if rt.hasPriceCol then pyStr r.price else "") +
              0.15 * score_int (pyOr r.sentiment 0) +
              0.10 * score_vis (pyOr r.recency_score 0.5)) ∧
    |(compute_dimension_scores name rt rv).composite -
      ((compute_dimension_scores name rt rv).reputation * 0.30 +
       (compute_dimension_scores name rt rv).responsiveness * 0.25 +
       (compute_dimension_scores name rt rv).digital * 0.20 +
       (compute_dimension_scores name rt rv).intelligence * 0.15 +
       (compute_dimension_scores name rt rv).visibility * 0.10)| ≤ 1/10 := by
  rw [cds_found rv hfound]
  constructor
  · dsimp only
    congr 1
    ring
  · dsimp only
    have h1 := abs_round1_sub (score_rep (pyOr r.rating_n 0) (pyOr r.rev_count_n 0))
    have h2 := abs_round1_sub (score_res (pyOr r.res_rate 0))
    have h3 := abs_round1_sub (score_dig (rt.hasWebsiteCol && r.website.isSome)
      (rt.hasPhoneCol && r.phone.isSome) (if rt.hasPriceCol then pyStr r.price else ""))
    have h4 := abs_round1_sub (score_int (pyOr r.sentiment 0))
    have h5 := abs_round1_sub (score_vis (pyOr r.recency_score 0.5))
    have hc := abs_round1_sub
      (score_rep (pyOr r.rating_n 0) (pyOr r.rev_count_n 0) * 0.30 +
       score_res (pyOr r.res_rate 0) * 0.25 +
       score_dig (rt.hasWebsiteCol && r.website.isSome)
         (rt.hasPhoneCol && r.phone.isSome)
         (if rt.hasPriceCol then pyStr r.price else "") * 0.20 +
       score_int (pyOr r.sentiment 0) * 0.15 +
       score_vis (pyOr r.recency_score 0.5) * 0.10)
    rw [abs_le] at h1 h2 h3 h4 h5 hc ⊢
    constructor <;> linarith [h1.1, h1.2, h2.1, h2.2, h3.1, h3.2, h4.1, h4.2,
      h5.1, h5.2, hc.1, hc.2]

/-- Witness for the amended C2 at a concrete table. -/
theorem C2_composite_witness :
    |(compute_dimension_scores "Bella Vista" tblC2 revC2).composite -
      ((compute_dimension_scores "Bella Vista" tblC2 revC2).reputation * 0.30 +
       (compute_dimension_scores "Bella Vista" tblC2 revC2).responsiveness * 0.25 +
       (compute_dimension_scores "Bella Vista" tblC2 revC2).digital * 0.20 +
       (compute_dimension_scores "Bella Vista" tblC2 revC2).intelligence * 0.15 +
       (compute_dimension_scores "Bella Vista" tblC2 revC2).visibility * 0.10)| ≤ 1/10 :=
  (C2_composite tblC2 revC2 "Bella Vista" rowC2
    (by norm_num [lookupRest, tblC2, rowC2, List.find?])).2

theorem pyOr_ge_iff {v : ℚ} : (4.5 : ℚ) ≤ pyOr v 0 ↔ (4.5 : ℚ) ≤ v := by
  unfold pyOr
  split_ifs with hz
  · subst hz; norm_num
  · exact Iff.rfl

theorem pyOr_lt_iff {v : ℚ} : pyOr v 1 < 0.30 ↔ v < 0.30 ∧ v ≠ 0 := by
  unfold pyOr
  split_ifs with hz
  · subst hz; norm_num
  · simp [hz]

def rowC3 : RestRow := ⟨"Goldener Hirsch", none, 24/5, 0, none, none, none, 0, 0, 0⟩

def tblC3 : RestTable := ⟨[rowC3], false, false, false, false⟩

/-- Claim C3, counterexample: at `rating_n = 4.8` and `res_rate = 0.0` the
claim demands `true`, but `row.get('res_rate', 1) or 1` treats the falsy
`0.0` as missing and substitutes `1`, so the flag is `false`. -/
theorem C3_counterexample :
    (lookupRest "Goldener Hirsch" tblC3).map RestRow.rating_n = some (24/5) ∧
    (lookupRest "Goldener Hirsch" tblC3).map RestRow.res_rate = some 0 ∧
    get_silent_winner_flag "Goldener Hirsch" tblC3 = false := by
  have h : lookupRest "Goldener Hirsch" tblC3 = some rowC3 := by
    norm_num [lookupRest, tblC3, rowC3, List.find?]
  refine ⟨by rw [h]; rfl, by rw [h]; rfl, ?_⟩
  unfold get_silent_winner_flag
  rw [h]
  simp only [Bool.and_eq_false_iff, decide_eq_false_iff_not, not_lt]
  right
  norm_num [pyOr, rowC3]

/-- Claim C3 (amended): the flag is true iff the restaurant is found with
`rating_n ≥ 4.5` and a NONZERO `res_rate < 0.30`; at `res_rate = 0.0` the
falsy-coalescing default substitutes `1.0` and the flag is false, and on
lookup failure it is false. -/
theorem C3_flag_iff (name : String) (rt : RestTable) :
    get_silent_winner_flag name rt = true ↔
      ∃ r, lookupRest name rt = some r ∧ (4.5 : ℚ) ≤ r.rating_n ∧
        r.res_rate < 0.30 ∧ r.res_rate ≠ 0 := by
  unfold get_silent_winner_flag
  cases h : lookupRest name rt with
  | none => simp
  | some row =>
    simp only [Bool.and_eq_true, decide_eq_true_eq, Option.some.injEq,
      pyOr_ge_iff, pyOr_lt_iff]
    constructor
    · rintro ⟨h1, h2, h3⟩
      exact ⟨row, rfl, h1, h2, h3⟩
    · rintro ⟨r, hr, h1, h2, h3⟩
      cases hr
      exact ⟨h1, h2, h3⟩

def rowC5 : RestRow := ⟨"Cafe Luna", none, 4, 100, none, none, none, 1/2, 50, 0⟩

def tblC5 : RestTable := ⟨[rowC5], false, false, false, false⟩

def revC5 : RevTable := ⟨[], false, false, false, false⟩

/-- Claim C5, counterexample: at stored `recency_score = 0.0` the claim
demands Visibility `min(0*100, 100) = 0`, but `row.get('recency_score', 0.5)
or 0.5` replaces the falsy `0.0` with `0.5`, yielding Visibility `50`. -/
theorem C5_counterexample :
    (lookupRest "Cafe Luna" tblC5).map RestRow.recency_score = some 0 ∧
    (compute_dimension_scores "Cafe Luna" tblC5 revC5).visibility = 50 ∧
    ((50 : ℚ) ≠ min ((0 : ℚ) * 100) 100) := by
  have h : lookupRest "Cafe Luna" tblC5 = some rowC5 := by
    norm_num [lookupRest, tblC5, rowC5, List.find?]
  refine ⟨by rw [h]; rfl, ?_, by norm_num [min_def]⟩
  rw [cds_found revC5 h]
  norm_num [rowC5, score_vis, pyOr, round1, roundHE, min_def]

/-- Claim C5 (amended): for a found restaurant with stored
`recency_score ∈ [0,1]`, Visibility is `recency_score × 100` rounded to one
decimal — except at `recency_score = 0.0`, where the falsy-coalescing getter
substitutes `0.5` and Visibility is `50`. -/
theorem C5_visibility (rt : RestTable) (rv : RevTable) (name : String)
    (r : RestRow) (hfound : lookupRest name rt = some r)
    (h0 : 0 ≤ r.recency_score) (h1 : r.recency_score ≤ 1) :
    (compute_dimension_scores name rt rv).visibility =
      if r.recency_score = 0 then 50 else round1 (r.recency_score * 100) := by
  rw [cds_found rv hfound]
  dsimp only
  unfold score_vis pyOr
  split_ifs with hz
  · norm_num [round1, roundHE, min_def]
  · rw [min_eq_left (by nlinarith)]

def rowC5b : RestRow := ⟨"Cafe Luna", none, 4, 100, none, none, none, 1/2, 50, 1/3⟩

def tblC5b : RestTable := ⟨[rowC5b], false, false, false, false⟩

/-- Witness for the amended C5: stored recency 1/3 yields Visibility 33.3. -/
theorem C5_visibility_witness :
    (compute_dimension_scores "Cafe Luna" tblC5b revC5).visibility = 333/10 := by
  have h := C5_visibility tblC5b revC5 "Cafe Luna" rowC5b
    (by norm_num [lookupRest, tblC5b, rowC5b, List.find?])
    (by norm_num [rowC5b]) (by norm_num [rowC5b])
  rw [h]
  norm_num [rowC5b, round1, roundHE]

/-- Claim C6, counterexample: gaps are ROUNDED to one decimal, so with a
benchmark rating of `4.444` the Reputation gap returned is `88.9`, not the
exact `standard − actual = 88.88` the claim states. -/
theorem C6_counterexample :
    get_gap_analysis ⟨0, 0, 0, 0, 0, 0⟩ (some (1111/250)) =
      [("Responsiveness", 90), ("Reputation", 889/10), ("Digital Presence", 85),
       ("Intelligence", 75), ("Visibility", 70)] ∧
    ((889 : ℚ)/10 ≠ (1111/250) * 20 - 0) := by
  constructor
  · norm_num [get_gap_analysis, standardTargets, dimValue, round1, roundHE,
      List.insertionSort, List.orderedInsert, min_def]
  · norm_num

/-- Claim C6 (amended): `get_gap_analysis` returns exactly the five dimension
keys, each mapped to the ONE-DECIMAL-ROUNDED difference `standard − actual`
(standards: benchmark rating × 20, 90, 85, 75, 70), sorted descending by gap
value. -/
theorem C6_gap_analysis (scores : DimensionScores) (bmRating : Option ℚ) :
    (get_gap_analysis scores bmRating).Perm
      ((standardTargets bmRating).map
        (fun p => (p.1, round1 (p.2 - dimValue scores p.1)))) ∧
    (get_gap_analysis scores bmRating).Pairwise (fun a b => b.2 ≤ a.2) := by
  constructor
  · exact List.perm_insertionSort _ _
  · haveI ht : IsTotal (String × ℚ) (fun a b => b.2 ≤ a.2) :=
      ⟨fun a b => le_total b.2 a.2⟩
    haveI htr : IsTrans (String × ℚ) (fun a b => b.2 ≤ a.2) :=
      ⟨fun a b c h1 h2 => le_trans h2 h1⟩
    exact List.sorted_insertionSort _ _

theorem syntheticMomentum_length (nowMonth : ℤ) (rand : ℕ → ℕ) :
    (syntheticMomentum nowMonth rand).length = 13 := by
  simp [syntheticMomentum]

theorem syntheticMomentum_months (nowMonth : ℤ) (rand : ℕ → ℕ) :
    ((syntheticMomentum nowMonth rand).map Prod.fst).Pairwise (· < ·) := by
  unfold syntheticMomentum
  rw [List.map_map, List.pairwise_map]
  refine (List.sorted_lt_range 13).imp ?_
  intro a b hab
  have : (a : ℤ) < (b : ℤ) := by exact_mod_cast hab
  simp only [Function.comp]
  omega

theorem realMomentum_length (monthOf : ℚ → ℤ) (subset : List RevRow) :
    (realMomentum monthOf subset).length ≤ 13 := by
  simp only [realMomentum, List.length_drop]
  omega

theorem realMomentum_months (monthOf : ℚ → ℤ) (subset : List RevRow) :
    ((realMomentum monthOf subset).map Prod.fst).Pairwise (· < ·) := by
  simp only [realMomentum]
  rw [List.map_drop]
  refine List.Pairwise.sublist (List.drop_sublist _ _) ?_
  rw [List.map_map]
  have hkeys : (Prod.fst ∘ fun k : ℤ =>
      (k, (subset.map (fun v => monthOf v.normalized_date)).count k)) = id := rfl
  rw [hkeys, List.map_id]
  have hsorted : ((subset.map (fun v => monthOf v.normalized_date)).dedup.insertionSort
      (· ≤ ·)).Pairwise (· ≤ ·) :=
    List.sorted_insertionSort _ _
  have hnodup : ((subset.map (fun v => monthOf v.normalized_date)).dedup.insertionSort
      (· ≤ ·)).Nodup :=
    (List.perm_insertionSort _ _).nodup_iff.mpr (List.nodup_dedup _)
  exact (hsorted.and hnodup).imp (fun h => lt_of_le_of_ne h.1 h.2)

/-- Claim C7: for every name, review table and abstracted month map,
Poisson draw and current month, `compute_momentum` returns at most 13
entries with strictly increasing months; the synthetic series has exactly 13
entries; and each way a real series can fail to be computable returns
exactly the synthetic series — a missing join-key or `normalized_date`
column, the caught `IndexError` of `res_name.split()[0]` on a non-empty
all-whitespace name, and a name fragment matching no review. -/
theorem C7_momentum (monthOf : ℚ → ℤ) (name : String) (rv : RevTable)
    (nowMonth : ℤ) (rand : ℕ → ℕ) :
    (compute_momentum monthOf name rv nowMonth rand).length ≤ 13 ∧
    ((compute_momentum monthOf name rv nowMonth rand).map Prod.fst).Pairwise (· < ·) ∧
    (syntheticMomentum nowMonth rand).length = 13 ∧
    ((rv.hasUrlCol = false ∨ rv.hasDateCol = false) →
      compute_momentum monthOf name rv nowMonth rand = syntheticMomentum nowMonth rand) ∧
    ((name ≠ "" ∧ pySplitWs name = []) →
      compute_momentum monthOf name rv nowMonth rand = syntheticMomentum nowMonth rand) ∧
    (∀ frag, (if name = "" then some "" else (pySplitWs name).head?) = some frag →
      (rv.rows.filter (fun v => containsTok frag (pyStr v.page_url))).length = 0 →
      compute_momentum monthOf name rv nowMonth rand = syntheticMomentum nowMonth rand) := by
  have hsynL : (syntheticMomentum nowMonth rand).length ≤ 13 := by
    rw [syntheticMomentum_length]
  have hsynP := syntheticMomentum_months nowMonth rand
  unfold compute_momentum
  by_cases hc : (rv.hasUrlCol = false ∨ rv.hasDateCol = false)
  · rw [if_pos hc]
    exact ⟨hsynL, hsynP, syntheticMomentum_length nowMonth rand, fun _ => rfl,
           fun _ => rfl, fun _ _ _ => rfl⟩
  · rw [if_neg hc]
    refine ⟨?_, ?_, syntheticMomentum_length nowMonth rand, fun h => absurd h hc, ?_, ?_⟩
    · cases hfrag : (if name = "" then some "" else (pySplitWs name).head?) with
      | none => exact hsynL
      | some frag =>
        dsimp only
        split_ifs with hlen
        · exact hsynL
        · exact realMomentum_length _ _
    · cases hfrag : (if name = "" then some "" else (pySplitWs name).head?) with
      | none => exact hsynP
      | some frag =>
        dsimp only
        split_ifs with hlen
        · exact hsynP
        · exact realMomentum_months _ _
    · rintro ⟨hne, hsplit⟩
      rw [if_neg hne, hsplit]
      rfl
    · intro frag hfrag hlen
      rw [hfrag]
      dsimp only
      rw [if_pos hlen]

def revC7 : RevTable := ⟨[], false, false, false, false⟩

def revC7b : RevTable := ⟨[⟨some "u7", none, 5, 0⟩], true, true, true, true⟩

/-- Witness for C7, exercising all three synthetic-fallback hypotheses:
missing columns, a whitespace-only name, and a fragment with no match. -/
theorem C7_momentum_witness :
    compute_momentum (fun _ => 0) "Zum Adler" revC7 0 (fun _ => 1) =
      syntheticMomentum 0 (fun _ => 1) ∧
    compute_momentum (fun _ => 0) " " revC7b 100 (fun _ => 7) =
      syntheticMomentum 100 (fun _ => 7) ∧
    compute_momentum (fun _ => 0) "Xyz" revC7b 100 (fun _ => 7) =
      syntheticMomentum 100 (fun _ => 7) ∧
    (compute_momentum (fun _ => 0) "Zum Adler" revC7 0 (fun _ => 1)).length ≤ 13 :=
  ⟨(C7_momentum (fun _ => 0) "Zum Adler" revC7 0 (fun _ => 1)).2.2.2.1 (Or.inl rfl),
   (C7_momentum (fun _ => 0) " " revC7b 100 (fun _ => 7)).2.2.2.2.1 ⟨by decide, rfl⟩,
   (C7_momentum (fun _ => 0) "Xyz" revC7b 100 (fun _ => 7)).2.2.2.2.2 "Xyz" rfl rfl,
   (C7_momentum (fun _ => 0) "Zum Adler" revC7 0 (fun _ => 1)).1⟩

/-- First-match-wins application of an ordered marker-rule list. -/
def applyRules (rules : List (String × PyDate)) (s : String) (dflt : PyDate) : PyDate :=
  match rules with
  | [] => dflt
  | (m, d) :: rest => if containsTok m s then d else applyRules rest s dflt

theorem applyRules_eq_find? (rules : List (String × PyDate)) (s : String)
    (dflt : PyDate) :
    applyRules rules s dflt =
      match rules.find? (fun p => containsTok p.1 s) with
      | some p => p.2
      | none => dflt := by
  induction rules with
  | nil => rfl
  | cons p rest ih =>
    obtain ⟨m, d⟩ := p
    rw [applyRules, List.find?_cons]
    cases h : containsTok m s with
    | true => simp [h]
    | false => simp [h, ih]

theorem absoluteFallback_eq_firstSome (s : String) :
    absoluteFallback s =
      match firstSome [tryFormatDMY "." s, tryFormatYMD "-" s,
                       tryFormatDMY "/" s] with
      | some d => d
      | none => .relHours (90 * 24) := by
  unfold absoluteFallback
  cases tryFormatDMY "." s <;> cases tryFormatYMD "-" s <;>
    cases tryFormatDMY "/" s <;> simp [firstSome]

/-- Claim C8: `_parse_german_date` agrees everywhere with the
specification's description — scan the ten markers in the stated priority
order with first match winning, then try the three absolute formats in
order, then fall back to 90 days before now. -/
theorem C8_date_priority (dateStr : String) :
    parse_german_date dateStr = specGermanDate dateStr := by
  have hA : parse_german_date dateStr =
      applyRules (markerRules ((leadingNumber dateStr.toLower : ℕ) : ℚ))
        dateStr.toLower (absoluteFallback dateStr) := by
    unfold parse_german_date
    simp only [applyRules, markerRules]
  rw [hA, applyRules_eq_find?]
  unfold specGermanDate
  cases hf : (markerRules ((leadingNumber dateStr.toLower : ℕ) : ℚ)).find?
      (fun p => containsTok p.1 dateStr.toLower) with
  | some p => rfl
  | none => exact absoluteFallback_eq_firstSome dateStr

theorem digitRunsAux_of_no_digit {l : List Char}
    (h : ∀ c ∈ l, c.isDigit = false) : digitRunsAux l [] = [] := by
  induction l with
  | nil => rfl
  | cons c rest ih =>
    have hc := h c (List.mem_cons_self c rest)
    rw [digitRunsAux, hc]
    simp only [Bool.false_eq_true, if_false, if_pos rfl]
    exact ih (fun x hx => h x (List.mem_cons_of_mem c hx))

/-- Claim C9: `_parse_int` returns `0` on inputs containing no digit
characters, and concatenates the first two digit runs otherwise — so
`"1.234 Bewertungen"` (runs `"1"`, `"234"`) parses to `1234`. -/
theorem C9_parse_int (s : String) :
    ((∀ c ∈ s.toList, c.isDigit = false) → parse_int s = 0) ∧
    parse_int "1.234 Bewertungen" = 1234 := by
  constructor
  · intro h
    unfold parse_int digitRuns
    rw [digitRunsAux_of_no_digit h]
    rfl
  · rfl

/-- Witness for C9: a digit-free count string and the spec's own example. -/
theorem C9_parse_int_witness :
    parse_int "Bewertungen ohne Zahl" = 0 ∧ parse_int "1.234 Bewertungen" = 1234 :=
  ⟨(C9_parse_int "Bewertungen ohne Zahl").1 (by decide),
   (C9_parse_int "Bewertungen ohne Zahl").2⟩

def revC10 : RevTable := ⟨[⟨some "u3", none, 5, 0⟩], true, true, true, true⟩

/-- Claim C10, counterexample: for an all-whitespace (but non-empty) name,
`res_name.split()[0]` raises `IndexError`, so even with join-key and date
columns present and a non-empty review table, `compute_momentum` returns the
synthetic fallback and NOT the real series aggregated over all reviews. -/
theorem C10_counterexample :
    compute_momentum (fun _ => 0) " " revC10 100 (fun _ => 7) =
      syntheticMomentum 100 (fun _ => 7) ∧
    syntheticMomentum 100 (fun _ => 7) ≠ realMomentum (fun _ => 0) revC10.rows := by
  constructor
  · rfl
  · decide

theorem containsRun_nil_left (l : List Char) : containsRun [] l = true := by
  cases l with
  | nil => rfl
  | cons c rest => simp [containsRun, leadsWith]

/-- Claim C10 (amended): for the EMPTY name the fragment is `""`, which is a
substring of every stringified join key (missing keys stringify to `"nan"`
and also match), so with join-key and date columns present and a non-empty
review table the result is the real series aggregated over ALL reviews; an
all-whitespace non-empty name instead hits an `IndexError` and falls back to
the synthetic series, as the counterexample shows. -/
theorem C10_empty_name (monthOf : ℚ → ℤ) (rv : RevTable) (nowMonth : ℤ)
    (rand : ℕ → ℕ) (hu : rv.hasUrlCol = true) (hd : rv.hasDateCol = true)
    (hne : rv.rows ≠ []) :
    compute_momentum monthOf "" rv nowMonth rand = realMomentum monthOf rv.rows := by
  unfold compute_momentum
  rw [if_neg (by simp [hu, hd]), if_pos rfl]
  dsimp only
  have hfilter : rv.rows.filter (fun v => containsTok "" (pyStr v.page_url)) = rv.rows :=
    List.filter_eq_self.mpr (fun a _ => containsRun_nil_left _)
  rw [hfilter, if_neg (by simpa [List.length_eq_zero] using hne)]

/-- Witness for the amended C10 at a concrete review table. -/
theorem C10_empty_name_witness :
    compute_momentum (fun _ => 0) "" revC10 100 (fun _ => 7) =
      realMomentum (fun _ => 0) revC10.rows :=
  C10_empty_name (fun _ => 0) revC10 100 (fun _ => 7) rfl rfl (by simp [revC10])
